import Mathlib

/-!
Shallow embedding of `main.py` from the `dlclubtwit` repository, together with
theorems checking the natural-language specification against it.

The embedding covers:
* `Shows.cleanTitle` (title sanitisation),
* the `Data` class (the sqlite completion ledger),
* `requests_get_with_retry` (the retry/backoff helper),
* the per-episode download loop of `__main__` (existence checks, the streaming
  download with its cleanup, the move to the final path, the `--skip` flag),
* `Shows.shows()` (which feed items are yielded at all).

Network and local I/O are modelled by explicit oracles: a `DownloadEvent` says how
the streaming of one episode went, a `MoveEvent` says whether the final rename
succeeded, and `succeeds : Nat -> Bool` says which HTTP attempts of the retry
helper succeed.
-/

namespace DLClubTwit

/-! ### Shows.cleanTitle (src/main.py lines 211-233) -/

/-- Code points of the punctuation characters in the character class of the first
`re.sub` of `cleanTitle`: less-than, greater-than, colon, double quote, slash,
backslash, vertical bar, question mark, asterisk, exclamation mark, dollar,
single quote, at sign, ampersand, hash, percent, semicolon, parentheses, curly
braces, square brackets.  The control range 0x00 to 0x1F is handled separately in
`isBadChar`. -/
def badCodes : List Nat :=
  [60, 62, 58, 34, 47, 92, 124, 63, 42, 33, 36, 39, 64, 38, 35, 37, 59, 40, 41,
   123, 125, 91, 93]

/-- Membership in the character class of the first `re.sub` of `cleanTitle`. -/
def isBadChar (c : Char) : Bool :=
  decide (c.toNat ≤ 31) || badCodes.contains c.toNat

/-- First substitution of `cleanTitle`: every character of the class is replaced
by an underscore. -/
def replaceBad (l : List Char) : List Char :=
  l.map fun c => if isBadChar c then '_' else c

/-- Second substitution of `cleanTitle` (the regex underscore-plus): each maximal
run of underscores collapses to a single underscore. -/
def collapseUnderscores : List Char → List Char
  | [] => []
  | [c] => [c]
  | c :: d :: rest =>
    if c = '_' ∧ d = '_' then collapseUnderscores (d :: rest)
    else c :: collapseUnderscores (d :: rest)

/-- The characters stripped from both ends by `strip` with the argument
consisting of a space, a dot and an underscore. -/
def isStripChar (c : Char) : Bool :=
  c == ' ' || c == '.' || c == '_'

/-- Python `strip`: remove the strip characters from both ends. -/
def stripEnds (l : List Char) : List Char :=
  (l.dropWhile isStripChar).rdropWhile isStripChar

/-- `Shows.cleanTitle` on the character list of the title: substitute, collapse,
strip, and fall back to the fixed default when the result is empty. -/
def cleanTitleList (l : List Char) : List Char :=
  let t := stripEnds (collapseUnderscores (replaceBad l))
  if t = [] then String.toList "untitled_show" else t

/-- `Shows.cleanTitle` (src/main.py lines 211-233). -/
def cleanTitle (s : String) : String :=
  String.mk (cleanTitleList s.toList)

/-- The no-two-adjacent-underscores invariant produced by the collapse step. -/
def NoDoubleUnderscore (l : List Char) : Prop :=
  List.Chain' (fun a b => ¬(a = '_' ∧ b = '_')) l

/-! ### The completion ledger: class Data (src/main.py lines 54-116) -/

/-- The `DatabaseError` the `Data` methods raise; for `addfilename` on a filename
that is already a row this wraps the sqlite unique-constraint violation. -/
inductive DbError where
  | duplicateEntry
deriving DecidableEq

/-- The rows of the single-column table `file` (schema:
`create table if not exists file (filename text unique)`); `Data.__init__` on a
fresh database yields the empty table. -/
abbrev Ledger := List String

/-- `Data.isfilename`: `select count(*) from file where filename=?`, true iff the
count is positive. -/
def isfilename (db : Ledger) (filename : String) : Bool :=
  decide (0 < db.countP (fun r => r == filename))

/-- `Data.addfilename`: `insert into file (filename) values (?)`.  The unique
constraint makes the insert fail exactly when the filename is already a row, and
sqlite leaves the table unchanged on the failed insert; the method wraps the
failure in a `DatabaseError`. -/
def addfilename (db : Ledger) (filename : String) : Except DbError Ledger :=
  if isfilename db filename then Except.error DbError.duplicateEntry
  else Except.ok (db ++ [filename])

/-- `Data.delfilename`: `delete from file where filename=?` (idempotent, not used
by the main flow). -/
def delfilename (db : Ledger) (filename : String) : Ledger :=
  db.filter fun r => !(r == filename)

/-- The caller policy of `__main__` (src/main.py lines 374-377): a
`DatabaseError` raised while processing one show is caught and the run continues
with the ledger state as it was, so a duplicate insert acts as a no-op. -/
def addfilenameCaught (db : Ledger) (filename : String) : Ledger :=
  match addfilename db filename with
  | Except.ok db2 => db2
  | Except.error _ => db

/-! ### requests_get_with_retry (src/main.py lines 26-42) -/

/-- The delay computed for a failed 0-based attempt:
`backoff_factor * (2 ** attempt_num)` (line 35), in seconds as an exact
rational.  The call sites all pass `backoff_factor=0.5`. -/
def backoffDelay (backoffFactor : ℚ) (attemptNum : Nat) : ℚ :=
  backoffFactor * 2 ^ attemptNum

/-- Result of `requests_get_with_retry`: either the response of the first
successful attempt (tagged with its 0-based attempt number), or the re-raised
`RequestException`. -/
inductive RetryResult where
  | ok (attemptNum : Nat)
  | raised
deriving DecidableEq

/-- The `for attempt_num in range(max_retries)` loop of
`requests_get_with_retry`.  `succeeds i` is the network oracle: whether the i-th
`requests.get` plus `raise_for_status` cycle succeeds.  Returns the result
together with the list of backoff delays actually slept: a failed attempt sleeps
`backoffDelay bf attemptNum`, except that a failure on the last attempt
(`attempt_num == max_retries - 1`) re-raises at once without sleeping (lines
35-40).  `remaining` counts the loop iterations still to run. -/
def retryLoop (succeeds : Nat → Bool) (bf : ℚ) (maxRetries : Nat) :
    Nat → Nat → RetryResult × List ℚ
  | 0, _ => (RetryResult.raised, [])
  | remaining + 1, attemptNum =>
    if succeeds attemptNum then (RetryResult.ok attemptNum, [])
    else if attemptNum = maxRetries - 1 then (RetryResult.raised, [])
    else
      let r := retryLoop succeeds bf maxRetries remaining (attemptNum + 1)
      (r.1, backoffDelay bf attemptNum :: r.2)

/-- `requests_get_with_retry(url, max_retries, backoff_factor)`: run the loop
from attempt 0; falling out of the loop (possible only for `max_retries = 0`)
also raises (line 42). -/
def requestsGetWithRetry (succeeds : Nat → Bool) (maxRetries : Nat) (bf : ℚ) :
    RetryResult × List ℚ :=
  retryLoop succeeds bf maxRetries maxRetries 0

/-! ### The per-episode download of __main__ (src/main.py lines 259-380) -/

/-- The filesystem fragment the script touches: files as pairs of path and byte
size. -/
abbrev FS := List (String × Nat)

/-- Whether a file exists at path `p`. -/
def fsExists (fs : FS) (p : String) : Bool :=
  fs.any fun e => e.1 == p

/-- The size of the file at path `p`, when it exists. -/
def fsSize (fs : FS) (p : String) : Option Nat :=
  (fs.find? fun e => e.1 == p).map (fun e => e.2)

/-- `os.remove` (also used for the remove half of `shutil.move`). -/
def fsRemove (fs : FS) (p : String) : FS :=
  fs.filter fun e => !(e.1 == p)

/-- Create or truncate and write: after `open(p, "wb")` and writing `n` bytes the
file at `p` holds exactly those `n` bytes, whatever was there before. -/
def fsWrite (fs : FS) (p : String) (n : Nat) : FS :=
  (p, n) :: fsRemove fs p

/-- `os.path.join` for the shapes the script uses (destination directory without
a trailing separator, relative filename). -/
def joinPath (dir file : String) : String :=
  dir ++ "/" ++ file

/-- `shows.filename = self.title + ".mp4"` (line 204); `title` is the already
cleaned title produced by `Shows.shows()`. -/
def showFilename (title : String) : String :=
  title ++ ".mp4"

/-- `shows.outputFilename` (line 205). -/
def outputFilenameOf (dest title : String) : String :=
  joinPath dest (showFilename title)

/-- `shows.downloadfilename` (line 206): a single shared temporary file name per
destination directory. -/
def downloadFilenameOf (dest : String) : String :=
  joinPath dest "twitclubdownload"

/-- How the streaming download of one episode goes: the oracle for the network
and local I/O events of lines 282-356. -/
inductive DownloadEvent where
  /-- `requests_get_with_retry` re-raises after its retries; caught at line 285,
  before the temporary file is touched. -/
  | netFail
  /-- `IOError` opening the temporary file (line 314). -/
  | openFail
  /-- an exception inside the chunk loop after `bytesWritten` bytes reached the
  temporary file and is handled per-show: the `IOError` of line 306, or any
  other `Exception` reaching the handler at line 378. -/
  | writeFail (bytesWritten : Nat)
  /-- an external interrupt inside the chunk loop after `bytesWritten` bytes;
  it is not an `Exception`, so it propagates and ends the run. -/
  | interrupted (bytesWritten : Nat)
  /-- the response body is exhausted normally after `bytesTotal` bytes. -/
  | complete (bytesTotal : Nat)
deriving DecidableEq

/-- Whether `shutil.move(downloadfilename, outputFilename)` succeeds (line 328). -/
inductive MoveEvent where
  | moveOk
  | moveFail
deriving DecidableEq

/-- The observable fate of one show iteration. -/
inductive Outcome where
  /-- line 367: already recorded as downloaded, skipped -/
  | skippedLedger
  /-- line 363: the output file already exists on disk, skipped -/
  | skippedExists
  /-- line 329: downloaded, moved into place and recorded -/
  | success
  /-- the show failed; the loop continues with the next show -/
  | failed
  /-- external interrupt: the exception propagates and the run ends -/
  | aborted
deriving DecidableEq

/-- What one show iteration did, as observable behaviour. -/
structure EpisodeReport where
  /-- whether any HTTP request for the media file was issued -/
  requested : Bool
  /-- the `Range` offset of the issued request.  `__main__` passes no headers to
  `requests.get` (line 284), so an issued request is always for the whole
  resource from byte 0. -/
  rangeStart : Option Nat
  outcome : Outcome
deriving DecidableEq

/-- The mutable state a run threads through the show loop. -/
structure SysState where
  ledger : Ledger
  fs : FS
deriving DecidableEq

/-- Lines 369-372: the trailing `--skip` check, executed on the fall-through
paths of the show body (the guard `not data.isfilename(...)` means the insert of
line 372 can never hit the unique constraint). -/
def skipCheck (skip : Bool) (st : SysState) (out : String) : SysState :=
  if skip && !isfilename st.ledger out && fsExists st.fs out then
    { st with ledger := st.ledger ++ [out] }
  else st

/-- One iteration of the show loop of `__main__` (src/main.py lines 267-380) for
a show with cleaned title `title` against destination directory `dest`.  `ev`
and `mv` are the oracles for the streaming download and the final move.  The
model assumes the declared length of the enclosure parses as an integer (as in
the feeds the script consumes); a run that dies on `int(shows.urllength)` never
reaches the network and touches nothing.  Returns the new state and the
observable report. -/
def processEpisode (skip : Bool) (ev : DownloadEvent) (mv : MoveEvent)
    (st : SysState) (dest title : String) : SysState × EpisodeReport :=
  let out := outputFilenameOf dest title
  let dl := downloadFilenameOf dest
  if isfilename st.ledger out then
    -- lines 366-367, then the skip check (which sees isfilename = true)
    (skipCheck skip st out, ⟨false, none, Outcome.skippedLedger⟩)
  else if fsExists st.fs out then
    -- lines 360-365: backfill the ledger without any network request, then the
    -- skip check (which sees isfilename = true)
    let st1 : SysState := { st with ledger := st.ledger ++ [out] }
    (skipCheck skip st1 out, ⟨false, none, Outcome.skippedExists⟩)
  else
    match ev with
    | DownloadEvent.netFail =>
      -- lines 284-287: continue, before the try of line 291; nothing on disk is
      -- touched and the skip check is not reached
      (st, ⟨true, none, Outcome.failed⟩)
    | DownloadEvent.openFail =>
      -- lines 314-319: continue from inside the try of line 291, so the finally
      -- of line 337 runs and removes the temporary file if one exists
      ({ st with fs := fsRemove st.fs dl }, ⟨true, none, Outcome.failed⟩)
    | DownloadEvent.writeFail k =>
      -- open(..., "wb") truncated the temporary file and k bytes were written
      -- (lines 296-301); the exception leads to continue, and the finally
      -- removes the temporary file
      ({ st with fs := fsRemove (fsWrite st.fs dl k) dl }, ⟨true, none, Outcome.failed⟩)
    | DownloadEvent.interrupted k =>
      -- an interrupt inside the chunk loop propagates; the finally still runs
      -- and removes the temporary file, then the process dies
      ({ st with fs := fsRemove (fsWrite st.fs dl k) dl }, ⟨true, none, Outcome.aborted⟩)
    | DownloadEvent.complete n =>
      let fs1 := fsWrite st.fs dl n
      match mv with
      | MoveEvent.moveOk =>
        -- lines 326-330 and 357-358: move into place and record; the temporary
        -- file is gone, so the finally removes nothing; the skip check sees
        -- isfilename = true
        let fs2 := fsWrite (fsRemove fs1 dl) out n
        let st1 : SysState := { ledger := st.ledger ++ [out], fs := fs2 }
        (skipCheck skip st1 out, ⟨true, none, Outcome.success⟩)
      | MoveEvent.moveFail =>
        -- lines 331-334: download_successful stays false, the finally removes
        -- the fully written temporary file, no ledger insert (line 357); the
        -- skip check runs but the output file does not exist
        let st1 : SysState := { st with fs := fsRemove fs1 dl }
        (skipCheck skip st1 out, ⟨true, none, Outcome.failed⟩)

/-! ### Shows.shows(): which feed items are yielded (src/main.py lines 164-208) -/

/-- An enclosure element: the url and length attributes are read with mandatory
indexing (a missing one raises `KeyError` and the item is skipped), the type
attribute is optional with default `audio/mpeg`. -/
structure Enclosure where
  url : Option String
  length : Option String
  type : Option String
deriving DecidableEq

/-- One item of the RSS feed, reduced to the fields `Shows.shows()` reads.
`title = none` covers both a missing title element and one with empty text. -/
structure FeedItem where
  title : Option String
  enclosure : Option Enclosure
deriving DecidableEq

/-- A show as yielded by `Shows.shows()`: the instance fields set before the
yield that the download loop reads. -/
structure ShowRec where
  title : String
  url : String
  urllength : String
  urltype : String
deriving DecidableEq

/-- The body of the loop of `Shows.shows()` (src/main.py lines 168-208) for one
item: `none` when the item is skipped with a warning (`continue`) — missing
title, missing enclosure element, enclosure lacking the url or length attribute
— and the yielded show otherwise. -/
def showOfItem (it : FeedItem) : Option ShowRec :=
  match it.title with
  | none => none
  | some t =>
    match it.enclosure with
    | none => none
    | some enc =>
      match enc.url, enc.length with
      | some u, some len =>
        some { title := cleanTitle t, url := u, urllength := len,
               urltype := enc.type.getD "audio/mpeg" }
      | _, _ => none

/-- `Shows.shows()` (src/main.py lines 164-208): the sequence of yielded shows. -/
def showsOf (items : List FeedItem) : List ShowRec :=
  items.filterMap showOfItem

/-- The show loop of `__main__` over the yielded shows, each with its own
download/move oracle; an aborted show (external interrupt) ends the run, any
other outcome continues with the next show. -/
def runFeed (skip : Bool) (dest : String) :
    SysState → List (ShowRec × DownloadEvent × MoveEvent) → SysState
  | st, [] => st
  | st, (sh, ev, mv) :: rest =>
    let r := processEpisode skip ev mv st dest sh.title
    match r.2.outcome with
    | Outcome.aborted => r.1
    | _ => runFeed skip dest r.1 rest

/-- A whole run: parse the feed items into shows, then process them in feed
order against the per-show oracles. -/
def processItems (skip : Bool) (dest : String) (st : SysState)
    (items : List FeedItem) (oracles : List (DownloadEvent × MoveEvent)) : SysState :=
  runFeed skip dest st ((showsOf items).zip oracles)

/-! #### Lemmas about cleanTitle -/

theorem mem_replaceBad {c : Char} {l : List Char} (h : c ∈ replaceBad l) :
    isBadChar c = false := by
  simp only [replaceBad, List.mem_map] at h
  obtain ⟨a, -, ha⟩ := h
  subst ha
  by_cases hb : isBadChar a = true
  · rw [if_pos hb]
    decide
  · rw [if_neg hb]
    exact Bool.eq_false_iff.mpr hb

theorem replaceBad_eq_self {l : List Char} (h : ∀ c ∈ l, isBadChar c = false) :
    replaceBad l = l := by
  induction l with
  | nil => rfl
  | cons c rest ih =>
    have hc := h c (List.mem_cons_self c rest)
    have hrest : replaceBad rest = rest := ih fun d hd => h d (List.mem_cons_of_mem c hd)
    show (if isBadChar c then '_' else c) :: replaceBad rest = c :: rest
    rw [hc, hrest, if_neg (by simp)]

theorem collapseUnderscores_sublist (l : List Char) :
    (collapseUnderscores l).Sublist l := by
  induction l with
  | nil => simp [collapseUnderscores]
  | cons c rest ih =>
    cases rest with
    | nil => simp [collapseUnderscores]
    | cons d rest2 =>
      show (if c = '_' ∧ d = '_' then collapseUnderscores (d :: rest2)
        else c :: collapseUnderscores (d :: rest2)).Sublist (c :: d :: rest2)
      split
      · exact ih.cons c
      · exact ih.cons₂ c

theorem mem_collapseUnderscores {c : Char} {l : List Char}
    (h : c ∈ collapseUnderscores l) : c ∈ l :=
  (collapseUnderscores_sublist l).subset h

theorem collapseUnderscores_head? (l : List Char) :
    (collapseUnderscores l).head? = l.head? := by
  induction l with
  | nil => rfl
  | cons c rest ih =>
    cases rest with
    | nil => rfl
    | cons d rest2 =>
      show (if c = '_' ∧ d = '_' then collapseUnderscores (d :: rest2)
        else c :: collapseUnderscores (d :: rest2)).head? = _
      split
      · rename_i hcd
        rw [ih]
        simp [hcd.1, hcd.2]
      · rfl

theorem noDoubleUnderscore_collapseUnderscores (l : List Char) :
    NoDoubleUnderscore (collapseUnderscores l) := by
  induction l with
  | nil => simp [collapseUnderscores, NoDoubleUnderscore]
  | cons c rest ih =>
    cases rest with
    | nil => simp [collapseUnderscores, NoDoubleUnderscore]
    | cons d rest2 =>
      show NoDoubleUnderscore (if c = '_' ∧ d = '_' then collapseUnderscores (d :: rest2)
        else c :: collapseUnderscores (d :: rest2))
      split
      · exact ih
      · rename_i hcd
        rw [NoDoubleUnderscore, List.chain'_cons']
        refine ⟨?_, ih⟩
        intro y hy
        rw [collapseUnderscores_head? (d :: rest2)] at hy
        simp only [List.head?_cons, Option.mem_def, Option.some_inj] at hy
        subst hy
        exact hcd

theorem collapseUnderscores_eq_self {l : List Char} (h : NoDoubleUnderscore l) :
    collapseUnderscores l = l := by
  induction l with
  | nil => rfl
  | cons c rest ih =>
    cases rest with
    | nil => rfl
    | cons d rest2 =>
      rw [NoDoubleUnderscore, List.chain'_cons] at h
      show (if c = '_' ∧ d = '_' then collapseUnderscores (d :: rest2)
        else c :: collapseUnderscores (d :: rest2)) = c :: d :: rest2
      rw [if_neg h.1, ih h.2]

theorem mem_stripEnds {c : Char} {l : List Char} (h : c ∈ stripEnds l) : c ∈ l := by
  unfold stripEnds List.rdropWhile at h
  rw [List.mem_reverse] at h
  have h1 : c ∈ (l.dropWhile isStripChar).reverse :=
    (List.dropWhile_suffix isStripChar).sublist.subset h
  rw [List.mem_reverse] at h1
  exact (List.dropWhile_suffix isStripChar).sublist.subset h1

theorem noDoubleUnderscore_stripEnds {l : List Char} (h : NoDoubleUnderscore l) :
    NoDoubleUnderscore (stripEnds l) := by
  unfold stripEnds List.rdropWhile
  have h1 : NoDoubleUnderscore (l.dropWhile isStripChar) :=
    List.Chain'.suffix h (List.dropWhile_suffix isStripChar)
  have h2 := List.chain'_reverse.mpr h1
  have h3 := List.Chain'.suffix h2 (List.dropWhile_suffix isStripChar)
  exact List.chain'_reverse.mpr h3

theorem stripEnds_idem (l : List Char) : stripEnds (stripEnds l) = stripEnds l := by
  unfold stripEnds
  have hdrop : ((l.dropWhile isStripChar).rdropWhile isStripChar).dropWhile isStripChar
      = (l.dropWhile isStripChar).rdropWhile isStripChar := by
    rw [List.dropWhile_eq_self_iff]
    intro hl
    have hpre := List.rdropWhile_prefix isStripChar (l.dropWhile isStripChar)
    have hlen : 0 < (l.dropWhile isStripChar).length :=
      lt_of_lt_of_le hl hpre.length_le
    have hget : ((l.dropWhile isStripChar).rdropWhile isStripChar).get ⟨0, hl⟩
        = (l.dropWhile isStripChar).get ⟨0, hlen⟩ := by
      simp only [List.get_eq_getElem]
      exact hpre.getElem hl
    rw [hget]
    exact List.dropWhile_get_zero_not isStripChar l hlen
  rw [hdrop, List.rdropWhile_idempotent]

theorem cleanTitleList_eq_default {l : List Char}
    (h : stripEnds (collapseUnderscores (replaceBad l)) = []) :
    cleanTitleList l = String.toList "untitled_show" := by
  unfold cleanTitleList
  rw [if_pos h]

theorem cleanTitleList_eq_stripped {l : List Char}
    (h : stripEnds (collapseUnderscores (replaceBad l)) ≠ []) :
    cleanTitleList l = stripEnds (collapseUnderscores (replaceBad l)) := by
  unfold cleanTitleList
  rw [if_neg h]

theorem cleanTitleList_chars_good {l : List Char} :
    ∀ c ∈ cleanTitleList l, isBadChar c = false := by
  intro c hc
  by_cases h : stripEnds (collapseUnderscores (replaceBad l)) = []
  · rw [cleanTitleList_eq_default h] at hc
    revert c
    decide
  · rw [cleanTitleList_eq_stripped h] at hc
    exact mem_replaceBad (mem_collapseUnderscores (mem_stripEnds hc))

theorem cleanTitleList_ne_nil (l : List Char) : cleanTitleList l ≠ [] := by
  by_cases h : stripEnds (collapseUnderscores (replaceBad l)) = []
  · rw [cleanTitleList_eq_default h]
    decide
  · rw [cleanTitleList_eq_stripped h]
    exact h

theorem cleanTitleList_idem (l : List Char) :
    cleanTitleList (cleanTitleList l) = cleanTitleList l := by
  by_cases h : stripEnds (collapseUnderscores (replaceBad l)) = []
  · have h1 : cleanTitleList l = String.toList "untitled_show" := by
      unfold cleanTitleList
      rw [if_pos h]
    rw [h1]
    decide
  · have h1 : cleanTitleList l = stripEnds (collapseUnderscores (replaceBad l)) := by
      unfold cleanTitleList
      rw [if_neg h]
    set r := stripEnds (collapseUnderscores (replaceBad l)) with hr
    rw [h1]
    have hgood : ∀ c ∈ r, isBadChar c = false := by
      intro c hc
      exact mem_replaceBad (mem_collapseUnderscores (mem_stripEnds hc))
    have hndu : NoDoubleUnderscore r :=
      noDoubleUnderscore_stripEnds (noDoubleUnderscore_collapseUnderscores _)
    have hchain : stripEnds (collapseUnderscores (replaceBad r)) = r := by
      rw [replaceBad_eq_self hgood, collapseUnderscores_eq_self hndu, hr,
        stripEnds_idem]
    unfold cleanTitleList
    rw [hchain, if_neg h]

/-- The claim theorem for C9.  `cleanTitle` is a pure function (determinism is
definitional); its output never contains a colon or a slash, and the concrete
title of the end-to-end scenario sanitises as expected. -/
theorem cleanTitle_filesystem_safe :
    (∀ t : String, ':' ∉ (cleanTitle t).toList ∧ '/' ∉ (cleanTitle t).toList) ∧
    cleanTitle "Ep: One/Two" = "Ep_ One_Two" := by
  constructor
  · intro t
    constructor
    · intro hmem
      have := cleanTitleList_chars_good (l := t.toList) ':' hmem
      simp [isBadChar, badCodes] at this
    · intro hmem
      have := cleanTitleList_chars_good (l := t.toList) '/' hmem
      simp [isBadChar, badCodes] at this
  · decide

/-- The claim theorem for C10: `cleanTitle` is idempotent and its result is never
the empty string (an all-bad title falls back to the fixed default name). -/
theorem cleanTitle_idempotent_nonempty :
    ∀ t : String, cleanTitle (cleanTitle t) = cleanTitle t ∧ cleanTitle t ≠ "" := by
  intro t
  constructor
  · show String.mk (cleanTitleList (cleanTitleList t.toList)) = _
    rw [cleanTitleList_idem]
    rfl
  · intro h
    have h2 : (cleanTitle t).toList = [] := by rw [h]; rfl
    exact cleanTitleList_ne_nil t.toList h2

/-! #### Lemmas about the ledger and the filesystem model -/

theorem isfilename_nil (f : String) : isfilename [] f = false := by
  simp [isfilename]

theorem isfilename_append_self (db : Ledger) (f : String) :
    isfilename (db ++ [f]) f = true := by
  simp [isfilename, List.countP_append, List.countP_cons]

theorem fsExists_fsRemove_of_not {fs : FS} {p q : String}
    (h : fsExists fs q = false) : fsExists (fsRemove fs p) q = false := by
  rw [Bool.eq_false_iff] at h ⊢
  intro hx
  apply h
  rw [fsExists, List.any_eq_true] at hx ⊢
  obtain ⟨e, he, hq⟩ := hx
  exact ⟨e, (List.mem_filter.mp he).1, hq⟩

theorem fsRemove_fsWrite_self (fs : FS) (p : String) (n : Nat) :
    fsRemove (fsWrite fs p n) p = fsRemove fs p := by
  unfold fsWrite fsRemove
  rw [List.filter_cons_of_neg (by simp)]
  rw [List.filter_filter]
  simp

theorem fsSize_fsWrite_self (fs : FS) (p : String) (n : Nat) :
    fsSize (fsWrite fs p n) p = some n := by
  unfold fsSize fsWrite
  rw [List.find?_cons_of_pos _ (by simp)]
  rfl

theorem skipCheck_of_isfilename {skip : Bool} {st : SysState} {out : String}
    (h : isfilename st.ledger out = true) : skipCheck skip st out = st := by
  unfold skipCheck
  rw [if_neg]
  simp [h]

theorem skipCheck_of_not_exists {skip : Bool} {st : SysState} {out : String}
    (h : fsExists st.fs out = false) : skipCheck skip st out = st := by
  unfold skipCheck
  rw [if_neg]
  simp [h]

/-! #### Branch equations for processEpisode -/

theorem processEpisode_ledger_branch {skip : Bool} {ev : DownloadEvent}
    {mv : MoveEvent} {st : SysState} {dest title : String}
    (h : isfilename st.ledger (outputFilenameOf dest title) = true) :
    processEpisode skip ev mv st dest title
      = (st, ⟨false, none, Outcome.skippedLedger⟩) := by
  unfold processEpisode
  rw [if_pos h, skipCheck_of_isfilename h]

theorem processEpisode_exists_branch {skip : Bool} {ev : DownloadEvent}
    {mv : MoveEvent} {st : SysState} {dest title : String}
    (h1 : isfilename st.ledger (outputFilenameOf dest title) = false)
    (h2 : fsExists st.fs (outputFilenameOf dest title) = true) :
    processEpisode skip ev mv st dest title
      = ({ st with ledger := st.ledger ++ [outputFilenameOf dest title] },
         ⟨false, none, Outcome.skippedExists⟩) := by
  have hred : processEpisode skip ev mv st dest title
      = (skipCheck skip
          ⟨st.ledger ++ [outputFilenameOf dest title], st.fs⟩
          (outputFilenameOf dest title),
         ⟨false, none, Outcome.skippedExists⟩) := by
    unfold processEpisode
    rw [if_neg (by simp [h1]), if_pos h2]
  rw [hred, skipCheck_of_isfilename (isfilename_append_self st.ledger _)]

theorem processEpisode_netFail {skip : Bool} {mv : MoveEvent} {st : SysState}
    {dest title : String}
    (h1 : isfilename st.ledger (outputFilenameOf dest title) = false)
    (h2 : fsExists st.fs (outputFilenameOf dest title) = false) :
    processEpisode skip DownloadEvent.netFail mv st dest title
      = (st, ⟨true, none, Outcome.failed⟩) := by
  unfold processEpisode
  rw [if_neg (by simp [h1]), if_neg (by simp [h2])]

theorem processEpisode_openFail {skip : Bool} {mv : MoveEvent} {st : SysState}
    {dest title : String}
    (h1 : isfilename st.ledger (outputFilenameOf dest title) = false)
    (h2 : fsExists st.fs (outputFilenameOf dest title) = false) :
    processEpisode skip DownloadEvent.openFail mv st dest title
      = ({ st with fs := fsRemove st.fs (downloadFilenameOf dest) },
         ⟨true, none, Outcome.failed⟩) := by
  unfold processEpisode
  rw [if_neg (by simp [h1]), if_neg (by simp [h2])]

theorem processEpisode_writeFail {skip : Bool} {mv : MoveEvent} {st : SysState}
    {dest title : String} {k : Nat}
    (h1 : isfilename st.ledger (outputFilenameOf dest title) = false)
    (h2 : fsExists st.fs (outputFilenameOf dest title) = false) :
    processEpisode skip (DownloadEvent.writeFail k) mv st dest title
      = ({ st with fs := fsRemove st.fs (downloadFilenameOf dest) },
         ⟨true, none, Outcome.failed⟩) := by
  rw [← fsRemove_fsWrite_self st.fs (downloadFilenameOf dest) k]
  unfold processEpisode
  rw [if_neg (by simp [h1]), if_neg (by simp [h2])]

theorem processEpisode_interrupted {skip : Bool} {mv : MoveEvent} {st : SysState}
    {dest title : String} {k : Nat}
    (h1 : isfilename st.ledger (outputFilenameOf dest title) = false)
    (h2 : fsExists st.fs (outputFilenameOf dest title) = false) :
    processEpisode skip (DownloadEvent.interrupted k) mv st dest title
      = ({ st with fs := fsRemove st.fs (downloadFilenameOf dest) },
         ⟨true, none, Outcome.aborted⟩) := by
  rw [← fsRemove_fsWrite_self st.fs (downloadFilenameOf dest) k]
  unfold processEpisode
  rw [if_neg (by simp [h1]), if_neg (by simp [h2])]

theorem processEpisode_complete_moveOk {skip : Bool} {st : SysState}
    {dest title : String} {n : Nat}
    (h1 : isfilename st.ledger (outputFilenameOf dest title) = false)
    (h2 : fsExists st.fs (outputFilenameOf dest title) = false) :
    processEpisode skip (DownloadEvent.complete n) MoveEvent.moveOk st dest title
      = ({ ledger := st.ledger ++ [outputFilenameOf dest title],
           fs := fsWrite (fsRemove st.fs (downloadFilenameOf dest))
             (outputFilenameOf dest title) n },
         ⟨true, none, Outcome.success⟩) := by
  have hred : processEpisode skip (DownloadEvent.complete n) MoveEvent.moveOk st dest title
      = (skipCheck skip
          ⟨st.ledger ++ [outputFilenameOf dest title],
           fsWrite (fsRemove (fsWrite st.fs (downloadFilenameOf dest) n)
             (downloadFilenameOf dest)) (outputFilenameOf dest title) n⟩
          (outputFilenameOf dest title),
         ⟨true, none, Outcome.success⟩) := by
    unfold processEpisode
    rw [if_neg (by simp [h1]), if_neg (by simp [h2])]
  rw [hred, skipCheck_of_isfilename (isfilename_append_self st.ledger _),
    fsRemove_fsWrite_self]

theorem processEpisode_complete_moveFail {skip : Bool} {st : SysState}
    {dest title : String} {n : Nat}
    (h1 : isfilename st.ledger (outputFilenameOf dest title) = false)
    (h2 : fsExists st.fs (outputFilenameOf dest title) = false) :
    processEpisode skip (DownloadEvent.complete n) MoveEvent.moveFail st dest title
      = ({ st with fs := fsRemove st.fs (downloadFilenameOf dest) },
         ⟨true, none, Outcome.failed⟩) := by
  have hred : processEpisode skip (DownloadEvent.complete n) MoveEvent.moveFail st dest title
      = (skipCheck skip
          ⟨st.ledger, fsRemove (fsWrite st.fs (downloadFilenameOf dest) n)
            (downloadFilenameOf dest)⟩
          (outputFilenameOf dest title),
         ⟨true, none, Outcome.failed⟩) := by
    unfold processEpisode
    rw [if_neg (by simp [h1]), if_neg (by simp [h2])]
  rw [hred, fsRemove_fsWrite_self,
    skipCheck_of_not_exists (fsExists_fsRemove_of_not h2)]

theorem fsExists_fsRemove_self (fs : FS) (p : String) :
    fsExists (fsRemove fs p) p = false := by
  rw [Bool.eq_false_iff]
  intro hx
  rw [fsExists, List.any_eq_true] at hx
  obtain ⟨e, he, hq⟩ := hx
  obtain ⟨-, hno⟩ := List.mem_filter.mp he
  rw [hq] at hno
  simp at hno

/-! #### Lemmas about the retry loop -/

theorem retryLoop_allFail_raised (bf : ℚ) (m : Nat) :
    ∀ (rem a : Nat), (retryLoop (fun _ => false) bf m rem a).1 = RetryResult.raised := by
  intro rem
  induction rem with
  | zero => intro a; rfl
  | succ n ih =>
    intro a
    simp only [retryLoop]
    rw [if_neg (by simp)]
    by_cases hm : a = m - 1
    · rw [if_pos hm]
    · rw [if_neg hm]
      exact ih (a + 1)

theorem retryLoop_allFail_delays (bf : ℚ) (m : Nat) :
    ∀ (rem a : Nat), 1 ≤ rem → a + rem = m →
      retryLoop (fun _ => false) bf m rem a
        = (RetryResult.raised, (List.range' a (rem - 1)).map (backoffDelay bf)) := by
  intro rem
  induction rem with
  | zero =>
    intro a h1 _
    omega
  | succ n ih =>
    intro a h1 hsum
    simp only [retryLoop]
    rw [if_neg (by simp)]
    cases n with
    | zero =>
      have ha : a = m - 1 := by omega
      rw [if_pos ha]
      simp [List.range']
    | succ n2 =>
      have ha : ¬(a = m - 1) := by omega
      rw [if_neg ha]
      rw [ih (a + 1) (by omega) (by omega)]
      show (RetryResult.raised,
        backoffDelay bf a :: (List.range' (a + 1) (n2 + 1 - 1)).map (backoffDelay bf)) = _
      simp only [Nat.add_sub_cancel]
      rw [List.range'_succ, List.map_cons]

theorem retryLoop_ok_bound {succeeds : Nat → Bool} {bf : ℚ} {m : Nat} :
    ∀ (rem a0 a : Nat), (retryLoop succeeds bf m rem a0).1 = RetryResult.ok a →
      a0 ≤ a ∧ a < a0 + rem ∧ succeeds a = true := by
  intro rem
  induction rem with
  | zero =>
    intro a0 a h
    simp only [retryLoop] at h
    exact absurd h (by simp)
  | succ n ih =>
    intro a0 a h
    simp only [retryLoop] at h
    by_cases hs : succeeds a0 = true
    · rw [if_pos hs] at h
      replace h : RetryResult.ok a0 = RetryResult.ok a := h
      injection h with h2
      subst h2
      exact ⟨Nat.le_refl a0, by omega, hs⟩
    · rw [if_neg hs] at h
      by_cases hm : a0 = m - 1
      · rw [if_pos hm] at h
        exact absurd h (by simp)
      · rw [if_neg hm] at h
        replace h : (retryLoop succeeds bf m n (a0 + 1)).1 = RetryResult.ok a := h
        obtain ⟨hle, hlt, hsx⟩ := ih (a0 + 1) a h
        exact ⟨by omega, by omega, hsx⟩

theorem showOfItem_none_of_no_url {it : FeedItem}
    (h : it.enclosure = none ∨ ∃ e, it.enclosure = some e ∧ e.url = none) :
    showOfItem it = none := by
  unfold showOfItem
  rcases h with henc | ⟨e, henc, hurl⟩
  · cases ht : it.title with
    | none => rfl
    | some t =>
      rw [henc]
  · obtain ⟨urlOpt, lenOpt, typeOpt⟩ := e
    have hurl2 : urlOpt = none := hurl
    subst hurl2
    cases ht : it.title with
    | none => rfl
    | some t =>
      rw [henc]

/-! ### Claim theorems -/

/-- C1 (counterexample): with a temporary file of 5 bytes already on disk, the
request issued for the episode carries no Range offset — the claim requires a
range request starting at offset 5 — and the completed transfer writes the full
12 streamed bytes from scratch rather than 5 + 7. -/
theorem no_range_request_counterexample :
    ¬((processEpisode false (DownloadEvent.complete 12) MoveEvent.moveOk
        ⟨[], [("d/twitclubdownload", 5)]⟩ "d" "Ep").2.rangeStart = some 5) ∧
    (processEpisode false (DownloadEvent.complete 12) MoveEvent.moveOk
        ⟨[], [("d/twitclubdownload", 5)]⟩ "d" "Ep").2.rangeStart = none ∧
    fsSize (processEpisode false (DownloadEvent.complete 12) MoveEvent.moveOk
        ⟨[], [("d/twitclubdownload", 5)]⟩ "d" "Ep").1.fs
      (outputFilenameOf "d" "Ep") = some 12 := by
  refine ⟨?_, ?_, ?_⟩ <;> decide

/-- C1 (amended): the implementation never resumes.  Every request issued for an
episode is a plain GET with no Range offset (the code passes no headers to
requests.get), and a completed transfer leaves the full streamed byte count at
the final path regardless of any pre-existing temporary-file prefix (the file is
opened in truncating write mode), so bytes 0..N are always re-fetched. -/
theorem processEpisode_no_resume :
    ∀ (skip : Bool) (ev : DownloadEvent) (mv : MoveEvent) (st : SysState)
      (dest title : String) (n : Nat),
      (processEpisode skip ev mv st dest title).2.rangeStart = none ∧
      (isfilename st.ledger (outputFilenameOf dest title) = false →
        fsExists st.fs (outputFilenameOf dest title) = false →
        fsSize (processEpisode skip (DownloadEvent.complete n) MoveEvent.moveOk
          st dest title).1.fs (outputFilenameOf dest title) = some n) := by
  intro skip ev mv st dest title n
  constructor
  · by_cases hled : isfilename st.ledger (outputFilenameOf dest title) = true
    · rw [processEpisode_ledger_branch hled]
    · have h1 : isfilename st.ledger (outputFilenameOf dest title) = false :=
        Bool.eq_false_iff.mpr hled
      by_cases hfs : fsExists st.fs (outputFilenameOf dest title) = true
      · rw [processEpisode_exists_branch h1 hfs]
      · have h2 : fsExists st.fs (outputFilenameOf dest title) = false :=
          Bool.eq_false_iff.mpr hfs
        cases ev with
        | netFail => rw [processEpisode_netFail h1 h2]
        | openFail => rw [processEpisode_openFail h1 h2]
        | writeFail k => rw [processEpisode_writeFail h1 h2]
        | interrupted k => rw [processEpisode_interrupted h1 h2]
        | complete m =>
          cases mv with
          | moveOk => rw [processEpisode_complete_moveOk h1 h2]
          | moveFail => rw [processEpisode_complete_moveFail h1 h2]
  · intro h1 h2
    rw [processEpisode_complete_moveOk h1 h2]
    exact fsSize_fsWrite_self _ _ n

/-- C1 (witness): the amended theorem applied with a 5-byte temporary file
already on disk and a 12-byte streamed body. -/
theorem processEpisode_no_resume_witness :
    isfilename ([] : Ledger) (outputFilenameOf "d" "Ep") = false ∧
    fsExists [("d/twitclubdownload", 5)] (outputFilenameOf "d" "Ep") = false ∧
    (processEpisode false (DownloadEvent.complete 12) MoveEvent.moveOk
        ⟨[], [("d/twitclubdownload", 5)]⟩ "d" "Ep").2.rangeStart = none ∧
    fsSize (processEpisode false (DownloadEvent.complete 12) MoveEvent.moveOk
        ⟨[], [("d/twitclubdownload", 5)]⟩ "d" "Ep").1.fs
      (outputFilenameOf "d" "Ep") = some 12 := by
  have h := processEpisode_no_resume false (DownloadEvent.complete 12)
    MoveEvent.moveOk ⟨[], [("d/twitclubdownload", 5)]⟩ "d" "Ep" 12
  exact ⟨by decide, by decide, h.1, h.2 (by decide) (by decide)⟩

/-- C2 (counterexample): a transfer that fails after writing 5 bytes leaves no
temporary file at all — the cleanup in the finally block removes it — refuting
the claim that the temporary file is left exactly as written. -/
theorem temp_file_removed_counterexample :
    fsExists (processEpisode false (DownloadEvent.writeFail 5) MoveEvent.moveOk
        ⟨[], []⟩ "d" "Ep").1.fs (downloadFilenameOf "d") = false := by
  decide

/-- C2 (amended): when a transfer fails or is interrupted after writing some
bytes, the temporary file is removed by the cleanup in the finally block (not
preserved); the final path does not exist and no ledger entry is made. -/
theorem failed_download_cleanup :
    ∀ (skip : Bool) (mv : MoveEvent) (st : SysState) (dest title : String) (k : Nat),
      isfilename st.ledger (outputFilenameOf dest title) = false →
      fsExists st.fs (outputFilenameOf dest title) = false →
      (fsExists (processEpisode skip (DownloadEvent.writeFail k) mv st dest title).1.fs
          (downloadFilenameOf dest) = false ∧
        fsExists (processEpisode skip (DownloadEvent.writeFail k) mv st dest title).1.fs
          (outputFilenameOf dest title) = false ∧
        isfilename (processEpisode skip (DownloadEvent.writeFail k) mv st dest title).1.ledger
          (outputFilenameOf dest title) = false ∧
        (processEpisode skip (DownloadEvent.writeFail k) mv st dest title).2.outcome
          = Outcome.failed) ∧
      (fsExists (processEpisode skip (DownloadEvent.interrupted k) mv st dest title).1.fs
          (downloadFilenameOf dest) = false ∧
        fsExists (processEpisode skip (DownloadEvent.interrupted k) mv st dest title).1.fs
          (outputFilenameOf dest title) = false) := by
  intro skip mv st dest title k h1 h2
  rw [processEpisode_writeFail h1 h2, processEpisode_interrupted h1 h2]
  exact ⟨⟨fsExists_fsRemove_self st.fs _, fsExists_fsRemove_of_not h2, h1, rfl⟩,
    fsExists_fsRemove_self st.fs _, fsExists_fsRemove_of_not h2⟩

/-- C2 (witness): the amended theorem applied to a write failure after 5 bytes on
an empty initial state. -/
theorem failed_download_cleanup_witness :
    isfilename ([] : Ledger) (outputFilenameOf "d" "Ep") = false ∧
    fsExists ([] : FS) (outputFilenameOf "d" "Ep") = false ∧
    fsExists (processEpisode false (DownloadEvent.writeFail 5) MoveEvent.moveOk
        ⟨[], []⟩ "d" "Ep").1.fs (downloadFilenameOf "d") = false ∧
    fsExists (processEpisode false (DownloadEvent.writeFail 5) MoveEvent.moveOk
        ⟨[], []⟩ "d" "Ep").1.fs (outputFilenameOf "d" "Ep") = false ∧
    (processEpisode false (DownloadEvent.writeFail 5) MoveEvent.moveOk
        ⟨[], []⟩ "d" "Ep").2.outcome = Outcome.failed := by
  have h := failed_download_cleanup false MoveEvent.moveOk ⟨[], []⟩ "d" "Ep" 5
    (by decide) (by decide)
  exact ⟨by decide, by decide, h.1.1, h.1.2.1, h.1.2.2.2⟩

/-- C3 (counterexample): with the default parameters (max_retries 3,
backoff_factor 0.5) and every attempt failing, the delays actually slept are
0.5 s then 1.0 s — the first delay is not the 2 s demanded by the spec formula
min(60, 2^min(1,6)). -/
theorem backoff_formula_counterexample :
    (requestsGetWithRetry (fun _ => false) 3 (1/2)).2 = [1/2, 1] ∧
    ¬((1 : ℚ)/2 = min 60 (2 ^ min 1 6)) := by
  constructor
  · simp only [requestsGetWithRetry, retryLoop]
    norm_num [backoffDelay]
  · norm_num [min_def]

/-- C3 (amended): within one call of requests_get_with_retry with every attempt
failing, the delay slept before 1-based retry attempt n (n up to max_retries - 1)
is backoff_factor * 2 ^ (n - 1) seconds — 0.5 s, 1.0 s, ... with the default
backoff_factor 0.5 — with no 60-second cap; after the last attempt fails the
exception is re-raised without sleeping.  The attempt counter is local to the
call, so it restarts at 0 on the next call. -/
theorem retry_backoff_delays :
    ∀ (m : Nat) (bf : ℚ), 1 ≤ m →
      requestsGetWithRetry (fun _ => false) m bf
        = (RetryResult.raised, (List.range (m - 1)).map (backoffDelay bf)) := by
  intro m bf hm
  unfold requestsGetWithRetry
  rw [retryLoop_allFail_delays bf m m 0 hm (by omega)]
  rw [List.range_eq_range']

/-- C3 (witness): the amended theorem at the default max_retries 3 and
backoff_factor 0.5: the slept delays are exactly 0.5 s and 1.0 s. -/
theorem retry_backoff_delays_witness :
    requestsGetWithRetry (fun _ => false) 3 (1/2)
      = (RetryResult.raised, [1/2, 1]) := by
  have h := retry_backoff_delays 3 (1/2) (by decide)
  rw [h]
  norm_num [List.range_succ, backoffDelay]

/-- C4 (counterexample): a transfer whose attempts all fail gives up after the
3 default attempts and surfaces the failure (the exception is re-raised),
refuting the claim that there is no maximum-attempts cutoff and that a
transient failure is never surfaced. -/
theorem retry_cutoff_counterexample :
    (requestsGetWithRetry (fun _ => false) 3 (1/2)).1 = RetryResult.raised := by
  decide

/-- C4 (amended): transient failures are retried at most max_retries times
(3 at every call site) within one call: a successful result can only come from
an attempt numbered below max_retries, a call whose attempts all fail re-raises
the exception, and the download loop surfaces that as a failed episode
(continuing the batch with the next show). -/
theorem retries_capped :
    (∀ (succeeds : Nat → Bool) (m : Nat) (bf : ℚ) (a : Nat),
        (requestsGetWithRetry succeeds m bf).1 = RetryResult.ok a →
        a < m ∧ succeeds a = true) ∧
    (∀ (m : Nat) (bf : ℚ),
        (requestsGetWithRetry (fun _ => false) m bf).1 = RetryResult.raised) ∧
    (∀ (skip : Bool) (mv : MoveEvent) (st : SysState) (dest title : String),
        isfilename st.ledger (outputFilenameOf dest title) = false →
        fsExists st.fs (outputFilenameOf dest title) = false →
        (processEpisode skip DownloadEvent.netFail mv st dest title).2.outcome
          = Outcome.failed) := by
  refine ⟨?_, ?_, ?_⟩
  · intro succeeds m bf a h
    obtain ⟨-, hlt, hs⟩ := retryLoop_ok_bound m 0 a h
    exact ⟨by omega, hs⟩
  · intro m bf
    exact retryLoop_allFail_raised bf m m 0
  · intro skip mv st dest title h1 h2
    rw [processEpisode_netFail h1 h2]

/-- C4 (witness): the capped-retry theorem applied at a run succeeding on attempt
0, at 2 all-failing attempts, and at a concrete failed episode. -/
theorem retries_capped_witness :
    (0 < 3 ∧ (fun _ => true : Nat → Bool) 0 = true) ∧
    (requestsGetWithRetry (fun _ => false) 2 (1/2)).1 = RetryResult.raised ∧
    (processEpisode false DownloadEvent.netFail MoveEvent.moveOk
        ⟨[], []⟩ "d" "Ep").2.outcome = Outcome.failed := by
  refine ⟨?_, ?_, ?_⟩
  · exact retries_capped.1 (fun _ => true) 3 (1/2) 0 (by decide)
  · exact retries_capped.2.1 2 (1/2)
  · exact retries_capped.2.2 false MoveEvent.moveOk ⟨[], []⟩ "d" "Ep"
      (by decide) (by decide)

/-- C5: for an episode whose final file already exists on disk before the
transfer, processing issues no network request, the outcome is one of the two
success-reporting skip events, and afterwards the ledger contains the episode
identifier (backfilled if it was not already present). -/
theorem existing_file_no_network :
    ∀ (skip : Bool) (ev : DownloadEvent) (mv : MoveEvent) (st : SysState)
      (dest title : String),
      fsExists st.fs (outputFilenameOf dest title) = true →
      (processEpisode skip ev mv st dest title).2.requested = false ∧
      isfilename (processEpisode skip ev mv st dest title).1.ledger
        (outputFilenameOf dest title) = true ∧
      ((processEpisode skip ev mv st dest title).2.outcome = Outcome.skippedLedger ∨
        (processEpisode skip ev mv st dest title).2.outcome = Outcome.skippedExists) := by
  intro skip ev mv st dest title hfs
  by_cases hled : isfilename st.ledger (outputFilenameOf dest title) = true
  · rw [processEpisode_ledger_branch hled]
    exact ⟨rfl, hled, Or.inl rfl⟩
  · have h1 : isfilename st.ledger (outputFilenameOf dest title) = false :=
      Bool.eq_false_iff.mpr hled
    rw [processEpisode_exists_branch h1 hfs]
    exact ⟨rfl, isfilename_append_self st.ledger _, Or.inr rfl⟩

/-- C5 (witness): the theorem applied to a state where the final file exists on
disk with 7 bytes and the ledger is empty. -/
theorem existing_file_no_network_witness :
    fsExists [("d/Ep.mp4", 7)] (outputFilenameOf "d" "Ep") = true ∧
    ((processEpisode false DownloadEvent.netFail MoveEvent.moveOk
        ⟨[], [("d/Ep.mp4", 7)]⟩ "d" "Ep").2.requested = false ∧
      isfilename (processEpisode false DownloadEvent.netFail MoveEvent.moveOk
        ⟨[], [("d/Ep.mp4", 7)]⟩ "d" "Ep").1.ledger (outputFilenameOf "d" "Ep") = true ∧
      ((processEpisode false DownloadEvent.netFail MoveEvent.moveOk
          ⟨[], [("d/Ep.mp4", 7)]⟩ "d" "Ep").2.outcome = Outcome.skippedLedger ∨
        (processEpisode false DownloadEvent.netFail MoveEvent.moveOk
          ⟨[], [("d/Ep.mp4", 7)]⟩ "d" "Ep").2.outcome = Outcome.skippedExists)) :=
  ⟨by decide, existing_file_no_network false DownloadEvent.netFail MoveEvent.moveOk
    ⟨[], [("d/Ep.mp4", 7)]⟩ "d" "Ep" (by decide)⟩

/-- C6 (counterexample): a feed item with a title but no enclosure (no media URL)
is skipped entirely by the iterator: after the run the ledger does not contain
the episode identifier, refuting the claim that the identifier is recorded. -/
theorem urlless_episode_counterexample :
    isfilename (processItems false "d" ⟨[], []⟩
        [{ title := some "NoMedia", enclosure := none }]
        [(DownloadEvent.netFail, MoveEvent.moveOk)]).ledger
      (outputFilenameOf "d" (cleanTitle "NoMedia")) = false ∧
    (processItems false "d" ⟨[], []⟩
        [{ title := some "NoMedia", enclosure := none }]
        [(DownloadEvent.netFail, MoveEvent.moveOk)]).ledger = [] := by
  constructor <;> decide

/-- C6 (amended): an episode record with no media URL (missing enclosure element
or enclosure without a url attribute) is skipped by the feed iterator before any
processing: it is never yielded, the run over a feed beginning with such an item
equals the run over the rest, and consequently no ledger record and no temporary
or final file is created for it. -/
theorem urlless_episode_skipped :
    ∀ (it : FeedItem) (items : List FeedItem) (skip : Bool) (dest : String)
      (st : SysState) (oracles : List (DownloadEvent × MoveEvent)),
      (it.enclosure = none ∨ ∃ e, it.enclosure = some e ∧ e.url = none) →
      showsOf (it :: items) = showsOf items ∧
      processItems skip dest st (it :: items) oracles
        = processItems skip dest st items oracles := by
  intro it items skip dest st oracles h
  have hf := showOfItem_none_of_no_url h
  have hshow : showsOf (it :: items) = showsOf items := by
    unfold showsOf
    rw [List.filterMap_cons, hf]
  refine ⟨hshow, ?_⟩
  unfold processItems
  rw [hshow]

/-- C6 (witness): the amended theorem applied to a single-item feed whose item
has no enclosure. -/
theorem urlless_episode_skipped_witness :
    showsOf [⟨some "NoMedia", none⟩] = showsOf [] ∧
    processItems false "d" ⟨[], []⟩ [⟨some "NoMedia", none⟩] []
      = processItems false "d" ⟨[], []⟩ [] [] :=
  urlless_episode_skipped ⟨some "NoMedia", none⟩ [] false "d" ⟨[], []⟩ []
    (Or.inl rfl)

/-- C7 (counterexample): with the skip flag set, an episode with no ledger entry
and no file on disk still issues a network request and is fully transferred,
refuting the claim that skip mode attempts no network transfer for such an
episode and merely marks it complete. -/
theorem skip_flag_counterexample :
    (processEpisode true (DownloadEvent.complete 1000) MoveEvent.moveOk
        ⟨[], []⟩ "d" "Ep").2.requested = true ∧
    fsSize (processEpisode true (DownloadEvent.complete 1000) MoveEvent.moveOk
        ⟨[], []⟩ "d" "Ep").1.fs (outputFilenameOf "d" "Ep") = some 1000 := by
  constructor <;> decide

/-- C7 (amended): the skip flag has no observable effect on episode processing.
Its only check (line 370) requires a file that exists on disk but is not in the
ledger, yet every path reaching that check has either just inserted the
identifier or has no file at the final path, so processing with the flag set is
identical to processing without it — in particular a network transfer is still
attempted for every episode lacking a ledger entry and an existing file. -/
theorem skip_flag_no_effect :
    ∀ (skip : Bool) (ev : DownloadEvent) (mv : MoveEvent) (st : SysState)
      (dest title : String),
      processEpisode skip ev mv st dest title
        = processEpisode false ev mv st dest title := by
  intro skip ev mv st dest title
  by_cases hled : isfilename st.ledger (outputFilenameOf dest title) = true
  · rw [processEpisode_ledger_branch hled, processEpisode_ledger_branch hled]
  · have h1 : isfilename st.ledger (outputFilenameOf dest title) = false :=
      Bool.eq_false_iff.mpr hled
    by_cases hfs : fsExists st.fs (outputFilenameOf dest title) = true
    · rw [processEpisode_exists_branch h1 hfs, processEpisode_exists_branch h1 hfs]
    · have h2 : fsExists st.fs (outputFilenameOf dest title) = false :=
        Bool.eq_false_iff.mpr hfs
      cases ev with
      | netFail => rw [processEpisode_netFail h1 h2, processEpisode_netFail h1 h2]
      | openFail => rw [processEpisode_openFail h1 h2, processEpisode_openFail h1 h2]
      | writeFail k => rw [processEpisode_writeFail h1 h2, processEpisode_writeFail h1 h2]
      | interrupted k =>
        rw [processEpisode_interrupted h1 h2, processEpisode_interrupted h1 h2]
      | complete n =>
        cases mv with
        | moveOk =>
          rw [processEpisode_complete_moveOk h1 h2, processEpisode_complete_moveOk h1 h2]
        | moveFail =>
          rw [processEpisode_complete_moveFail h1 h2,
            processEpisode_complete_moveFail h1 h2]

/-- C8: for every identifier, isfilename is false on the fresh (empty) table;
after a successful addfilename it is true; a second addfilename of the same
identifier fails with the DuplicateEntry condition while leaving the table
unchanged (so isfilename stays true), and the caller policy of catching the
DatabaseError turns that duplicate insert into a harmless no-op rather than a
fatal error. -/
theorem ledger_record_idempotent :
    ∀ (id : String) (db db1 : Ledger),
      isfilename [] id = false ∧
      (addfilename db id = Except.ok db1 →
        isfilename db1 id = true ∧
        addfilename db1 id = Except.error DbError.duplicateEntry ∧
        addfilenameCaught db1 id = db1) := by
  intro id db db1
  refine ⟨isfilename_nil id, fun h => ?_⟩
  unfold addfilename at h
  by_cases hmem : isfilename db id = true
  · rw [if_pos hmem] at h
    exact absurd h (by simp)
  · rw [if_neg hmem] at h
    injection h with h2
    subst h2
    have htrue := isfilename_append_self db id
    refine ⟨htrue, ?_, ?_⟩
    · unfold addfilename
      rw [if_pos htrue]
    · unfold addfilenameCaught addfilename
      rw [if_pos htrue]

/-- C8 (witness): the theorem applied to the identifier a.mp4 on the fresh
table. -/
theorem ledger_record_idempotent_witness :
    isfilename [] "a.mp4" = false ∧
    addfilename [] "a.mp4" = Except.ok ["a.mp4"] ∧
    isfilename ["a.mp4"] "a.mp4" = true ∧
    addfilename ["a.mp4"] "a.mp4" = Except.error DbError.duplicateEntry ∧
    addfilenameCaught ["a.mp4"] "a.mp4" = ["a.mp4"] := by
  have h := (ledger_record_idempotent "a.mp4" [] ["a.mp4"]).2 (by rfl)
  exact ⟨(ledger_record_idempotent "a.mp4" [] ["a.mp4"]).1, by rfl, h.1, h.2.1, h.2.2⟩
